import Mathlib

/-!
Verification development for the dora/poogle type-reference search engine.

The repository contains four Python variants of the same idea:
  * `poogle.py`      - annotation extraction plus a recursive structural
                       matcher `type_matches`;
  * `poogle2.py`     - a generic-visitor `TypeFinder` plus the recursive
                       cross-file traversal `dora`;
  * `poogle3.py`     - `TypeVisitor`/`ImportTracker`/`TypeAnalyzer` with a
                       per-file import map built before scanning;
  * `second_dora.py` - an enriched per-file search that also queries the
                       live Python package environment.

This file gives a shallow embedding of the Python `ast` data the programs
consume and of the functions named by the claims, and proves or refutes
each claim against those embeddings.  Machine-level behaviour that the
programs rely on (file opening, `ast.parse`) is modelled by passing each
file's parse outcome explicitly: a file system is a list of
`(path, Except ParseErr ParsedFile)` pairs, where an `Except.error` entry
stands for a file whose `open`/`ast.parse` raises (malformed source or a
decode failure).  Python exceptions are modelled with `Except`.
-/

namespace PySearch

/-- Source position of an AST node: `lineno` (1-based), `col_offset`
(0-based) and `end_col_offset`, as carried by every CPython expression
node.  (`end_lineno` is read by `second_dora.search_file` but never used
afterwards, so it is not modelled.) -/
structure Pos where
  lineno : Nat
  colOffset : Nat
  endColOffset : Nat
deriving DecidableEq, Repr

/-- The payload of an `ast.Constant` node, with the Python type name of the
value recoverable (`type(node.value).__name__`). -/
inductive PyConst where
  | strC (s : String)
  | intC (n : Int)
  | boolC (b : Bool)
  | noneC
deriving DecidableEq, Repr

/-- Binary operators: the matchers only distinguish `ast.BitOr` (the
`|` union operator) from every other operator. -/
inductive BinOpKind where
  | bitOr
  | otherOp
deriving DecidableEq, Repr

/-- Python expression nodes, covering the node kinds the four variants
dispatch on.  Every constructor carries its source position, as every
CPython expression node does. -/
inductive PyExpr where
  | name (pos : Pos) (id : String)
  | attrE (pos : Pos) (value : PyExpr) (attr : String)
  | subscriptE (pos : Pos) (value : PyExpr) (slice : PyExpr)
  | tupleE (pos : Pos) (elts : List PyExpr)
  | listE (pos : Pos) (elts : List PyExpr)
  | binOp (pos : Pos) (op : BinOpKind) (left : PyExpr) (right : PyExpr)
  | call (pos : Pos) (func : PyExpr) (args : List PyExpr)
  | constant (pos : Pos) (value : PyConst)
  | lambdaE (pos : Pos) (body : PyExpr)
  | compare (pos : Pos) (left : PyExpr) (comparators : List PyExpr)
  | boolOp (pos : Pos) (values : List PyExpr)
  | unaryOp (pos : Pos) (operand : PyExpr)
  | dictE (pos : Pos) (keys : List PyExpr) (values : List PyExpr)
  | ifExp (pos : Pos) (test : PyExpr) (body : PyExpr) (orelse : PyExpr)

/-- The position of an expression node. -/
def PyExpr.pos : PyExpr → Pos
  | .name p _ => p
  | .attrE p _ _ => p
  | .subscriptE p _ _ => p
  | .tupleE p _ => p
  | .listE p _ => p
  | .binOp p _ _ _ => p
  | .call p _ _ => p
  | .constant p _ => p
  | .lambdaE p _ => p
  | .compare p _ _ => p
  | .boolOp p _ => p
  | .unaryOp p _ => p
  | .dictE p _ _ => p
  | .ifExp p _ _ _ => p

/-- Whether a node is a plain `ast.Name` (`isinstance(node, ast.Name)`). -/
def PyExpr.isName : PyExpr → Bool
  | .name _ _ => true
  | _ => false

/-- The `.id` field of a node; `none` models the `AttributeError` raised
when `.id` is read on a node that is not an `ast.Name`. -/
def PyExpr.idField : PyExpr → Option String
  | .name _ i => some i
  | _ => none

/-- One `ast.alias` inside an import statement: the imported name and the
optional `as` binding. -/
structure ImportAlias where
  aname : String
  asname : Option String
deriving DecidableEq, Repr

/-- One formal parameter (`ast.arg`): its name, column offset and optional
annotation expression. -/
structure Arg where
  argId : String
  argCol : Nat
  ann : Option PyExpr

/-- Python statements, covering the statement kinds the visitors dispatch
on.  `asyncFunctionDef` is folded into `functionDef` (both `poogle.py` and
`second_dora.py` treat them identically). -/
inductive Stmt where
  | importS (names : List ImportAlias)
  | importFrom (module : Option String) (names : List ImportAlias)
  | exprStmt (e : PyExpr)
  | annAssign (pos : Pos) (target : PyExpr) (ann : PyExpr) (value : Option PyExpr)
  | assign (pos : Pos) (targets : List PyExpr) (value : PyExpr) (typeComment : Option PyExpr)
  | functionDef (pos : Pos) (fname : String) (args : List Arg) (kwonlyargs : List Arg)
      (returns : Option PyExpr) (body : List Stmt)
  | classDef (pos : Pos) (cname : String) (bases : List PyExpr) (body : List Stmt)
  | passS

/-- A successfully parsed file: its statement list (`tree.body`) and its
source text split into lines (`source.splitlines()`). -/
structure ParsedFile where
  body : List Stmt
  lines : List String

/-- A parse/decode failure: the two exception classes that
`poogle.search_file` and `second_dora.search_file` catch
(`SyntaxError`, `UnicodeDecodeError`), each carrying `str(e)`. -/
inductive ParseErr where
  | invalidSource (msg : String)
  | decodeFailure (msg : String)
deriving DecidableEq, Repr

/-- `str(e)` of a caught parse/decode exception. -/
def ParseErr.msg : ParseErr → String
  | .invalidSource m => m
  | .decodeFailure m => m

/-- A file system: an association list from file path to parse outcome.
An entry models an existing file; the `Except.error` case models a file
whose `open(...)`/`ast.parse(...)` raises. -/
abbrev FileSys := List (String × Except ParseErr ParsedFile)

/-- First-match association-list lookup (models both `os.path.exists`
plus `open`, and Python `dict` lookup for maps built with front-insertion). -/
def lookupList {α : Type} : List (String × α) → String → Option α
  | [], _ => none
  | (k, v) :: rest, key => if k = key then some v else lookupList rest key

/-- The paths present in a file system. -/
def fsNames (fs : FileSys) : List String := fs.map Prod.fst

/-!  String primitives.  The building blocks below are written over
character lists by structural recursion (rather than with the library's
position-based string loops) so that every definition in this file
evaluates inside the kernel on concrete inputs. -/

/-- Whether `pre` is an initial segment of `l`. -/
def startsWithList : List Char → List Char → Bool
  | _, [] => true
  | [], _ :: _ => false
  | a :: as, b :: bs => a == b && startsWithList as bs

/-- Whether `needle` occurs contiguously inside `hay`. -/
def containsList (hay needle : List Char) : Bool :=
  match hay with
  | [] => needle.isEmpty
  | _ :: rest => startsWithList hay needle || containsList rest needle

/-- Python's substring test `needle in haystack`. -/
def strContains (haystack needle : String) : Bool :=
  containsList haystack.toList needle.toList

/-- Python's `text.endswith(post)`. -/
def strEndsWith (s post : String) : Bool :=
  startsWithList s.toList.reverse post.toList.reverse

/-- Python's `text.strip()` for the whitespace the sources contain. -/
def isSpaceChar (c : Char) : Bool :=
  c == ' ' || c == '\t' || c == '\n' || c == '\r'

/-- Python's `text.strip()`. -/
def stripStr (s : String) : String :=
  String.mk (((s.toList.dropWhile isSpaceChar).reverse.dropWhile isSpaceChar).reverse)

/-- `name.replace('.', os.sep)`: the single-character replacement used by
the import resolvers. -/
def replaceDotSep (s : String) : String :=
  String.mk (s.toList.map fun c => if c == '.' then '/' else c)

/-- `os.path.dirname`: everything before the final path separator
(empty for a bare file name). -/
def dirname (p : String) : String :=
  String.mk ((((p.toList.reverse).dropWhile (fun c => c != '/')).drop 1).reverse)

/-- `os.path.join(dir, rest)` for the shapes the programs produce:
joining with a single separator, with an empty directory contributing
nothing. -/
def joinPath (dir rest : String) : String :=
  if dir = "" then rest else dir ++ "/" ++ rest

/-- `os.path.basename`: the component after the final separator. -/
def basename (p : String) : String :=
  String.mk (((p.toList.reverse).takeWhile (fun c => c != '/')).reverse)

/-- Python's `text[a:b]` character slice. -/
def strSlice (s : String) (a b : Nat) : String :=
  String.mk ((s.toList.drop a).take (b - a))

/-- Python's `text[a:]` character slice. -/
def strDropSlice (s : String) (a : Nat) : String :=
  String.mk (s.toList.drop a)

/-- `module_name.split('.')[0]`: the first dotted segment. -/
def headSegment (s : String) : String :=
  String.mk (s.toList.takeWhile fun c => c != '.')

/-- `sep.join(parts)`. -/
def strJoin (sep : String) : List String → String
  | [] => ""
  | [x] => x
  | x :: rest => x ++ sep ++ strJoin sep rest

/-- `self.source_lines[lineno - 1]`.  For trees and line lists produced by
parsing one source text the index is always in range; the model totalises
the lookup with `""` for out-of-range indices. -/
def lineAt (lines : List String) (lineno : Nat) : String :=
  lines.getD (lineno - 1) ""

end PySearch

namespace Poogle

open PySearch

mutual

/-- `poogle.type_matches`: recursively check whether `target_type` appears
in the annotation.  Name: identifier equality; Attribute: trailing member
equality; Subscript: value or slice; Tuple/List: any element; `BinOp` with
`BitOr`: either side; Call: callee or any argument; everything else
(including `ast.Constant`, hence the literal `None`): no match. -/
def type_matches : PyExpr → String → Bool
  | .name _ i, target => i == target
  | .attrE _ _ a, target => a == target
  | .subscriptE _ v s, target => type_matches v target || type_matches s target
  | .tupleE _ elts, target => type_matchesAny elts target
  | .listE _ elts, target => type_matchesAny elts target
  | .binOp _ .bitOr l r, target => type_matches l target || type_matches r target
  | .call _ f args, target => type_matches f target || type_matchesAny args target
  | _, _ => false

/-- `any(type_matches(e, target) for e in elts)`. -/
def type_matchesAny : List PyExpr → String → Bool
  | [], _ => false
  | e :: rest, target => type_matches e target || type_matchesAny rest target

end

/-- One extracted annotation record of `poogle.extract_annotations`:
the annotation node with the line/column it was recorded at. -/
structure AnnRecord where
  node : PyExpr
  lineno : Nat
  colOffset : Nat

/-- `poogle.extract_annotations`: collect function-argument and return
annotations (positional and keyword-only arguments), `AnnAssign`
annotations, type comments on assignments to `Name` targets (one record
per such target), and class base expressions, walking nested statements
via `generic_visit`. -/
def extract_anns : List Stmt → List AnnRecord
  | [] => []
  | stmt :: rest =>
    (match stmt with
     | .functionDef _ _ args kwonlyargs returns body =>
       ((args ++ kwonlyargs).filterMap fun a =>
         a.ann.map fun e => AnnRecord.mk e e.pos.lineno e.pos.colOffset)
       ++ (match returns with
           | some r => [AnnRecord.mk r r.pos.lineno r.pos.colOffset]
           | none => [])
       ++ extract_anns body
     | .annAssign _ _ ann _ =>
       [AnnRecord.mk ann ann.pos.lineno ann.pos.colOffset]
     | .assign pos targets _ typeComment =>
       (match typeComment with
        | some tc => (targets.filter PyExpr.isName).map fun _ =>
            AnnRecord.mk tc pos.lineno pos.colOffset
        | none => [])
     | .classDef _ _ bases body =>
       (bases.map fun b => AnnRecord.mk b b.pos.lineno b.pos.colOffset)
       ++ extract_anns body
     | _ => []) ++ extract_anns rest

/-- The diagnostic `poogle.search_file` and `second_dora.search_file`
print for a caught parse/decode failure: `f"Skipping {file_path}: {e}"`. -/
def skipMsg (filePath : String) (e : ParseErr) : String :=
  "Skipping " ++ filePath ++ ": " ++ e.msg

/-- Output of one per-file search in `poogle.py`: the match triples
together with what was printed, separated by stream (`print` without a
`file=` argument writes to standard output). -/
structure SearchOutP where
  results : List (Nat × Nat × String)
  stdoutMsgs : List String
  stderrMsgs : List String
deriving DecidableEq, Repr

/-- `poogle.search_file`, taking the file's parse outcome explicitly: on
success, every extracted annotation satisfying `type_matches` becomes a
`(lineno, col_offset, target_type)` triple; a caught failure prints the
skip diagnostic with a plain `print` (standard output) and yields no
matches. -/
def searchFileP (content : Except ParseErr ParsedFile) (filePath targetType : String) :
    SearchOutP :=
  match content with
  | .error e => ⟨[], [skipMsg filePath e], []⟩
  | .ok pf =>
    ⟨(extract_anns pf.body).filterMap fun r =>
      if type_matches r.node targetType then some (r.lineno, r.colOffset, targetType)
      else none, [], []⟩

/-- `poogle.main`'s per-file loop: each discovered file is searched in
order, independently of the outcomes for the other files. -/
def mainP (fs : FileSys) (targetType : String) : List SearchOutP :=
  fs.map fun entry => searchFileP entry.2 entry.1 targetType

end Poogle

namespace Poogle2

open PySearch

/-- One result tuple of `poogle2.TypeFinder`:
`(lineno, col_offset, name, expr_kind)`. -/
structure FoundOcc where
  lineno : Nat
  colOffset : Nat
  occName : String
  exprKind : String
deriving DecidableEq, Repr

/-- A `TypeFinder` result with the `source_file` column added by `dora`:
`(lineno, col_offset, type_name, expr_type, source_file)`. -/
structure ResolvedOcc where
  lineno : Nat
  colOffset : Nat
  occName : String
  exprKind : String
  sourceFile : String
deriving DecidableEq, Repr

/-- Whether `node.id` matches the optional target
(`self.target_type is None or node.id == self.target_type`). -/
def targetHit (target : Option String) (s : String) : Bool :=
  match target with
  | none => true
  | some t => s == t

mutual

/-- `poogle2.TypeFinder` on one expression: `visit_Name` records every
name; `visit_Call` records the callee only when it is a plain name;
`visit_Attribute` records `value.attr` only when the base is a plain
name and the *full dotted string* equals the target; `generic_visit`
then descends into the children in field order. -/
def finderExpr (target : Option String) : PyExpr → List FoundOcc
  | .name p i =>
    if targetHit target i then [⟨p.lineno, p.colOffset, i, "NameExpr"⟩] else []
  | .attrE p v a =>
    (match v with
     | .name _ vid =>
       if targetHit target (vid ++ "." ++ a) then
         [⟨p.lineno, p.colOffset, vid ++ "." ++ a, "AttributeExpr"⟩]
       else []
     | _ => []) ++ finderExpr target v
  | .call p f args =>
    (match f with
     | .name _ fid =>
       if targetHit target fid then [⟨p.lineno, p.colOffset, fid, "CallExpr"⟩] else []
     | _ => []) ++ finderExpr target f ++ finderExprList target args
  | .subscriptE _ v s => finderExpr target v ++ finderExpr target s
  | .tupleE _ elts => finderExprList target elts
  | .listE _ elts => finderExprList target elts
  | .binOp _ _ l r => finderExpr target l ++ finderExpr target r
  | .constant _ _ => []
  | .lambdaE _ b => finderExpr target b
  | .compare _ l cs => finderExpr target l ++ finderExprList target cs
  | .boolOp _ vs => finderExprList target vs
  | .unaryOp _ o => finderExpr target o
  | .dictE _ ks vs => finderExprList target ks ++ finderExprList target vs
  | .ifExp _ t b o => finderExpr target t ++ finderExpr target b ++ finderExpr target o

/-- `TypeFinder` over a list of child expressions. -/
def finderExprList (target : Option String) : List PyExpr → List FoundOcc
  | [] => []
  | e :: rest => finderExpr target e ++ finderExprList target rest

/-- `TypeFinder` over a statement: import statements contain no
expression children (`ast.alias` objects carry no `Name` nodes), the
other statements are walked via `generic_visit` in AST field order. -/
def finderStmt (target : Option String) : Stmt → List FoundOcc
  | .importS _ => []
  | .importFrom _ _ => []
  | .exprStmt e => finderExpr target e
  | .annAssign _ tgt ann value =>
    finderExpr target tgt ++ finderExpr target ann ++
      (match value with | some v => finderExpr target v | none => [])
  | .assign _ targets value _ =>
    finderExprList target targets ++ finderExpr target value
  | .functionDef _ _ args kwonlyargs returns body =>
    finderExprList target (args.filterMap Arg.ann) ++
      finderExprList target (kwonlyargs.filterMap Arg.ann) ++
      finderStmts target body ++
      (match returns with | some r => finderExpr target r | none => [])
  | .classDef _ _ bases body =>
    finderExprList target bases ++ finderStmts target body
  | .passS => []

/-- `TypeFinder` over a statement list. -/
def finderStmts (target : Option String) : List Stmt → List FoundOcc
  | [] => []
  | s :: rest => finderStmt target s ++ finderStmts target rest

end

/-- The import map of `dora` (a Python `dict`, modelled as a
front-inserted association list: the newest binding for a key wins). -/
abbrev ImportMap := List (String × String)

/-- `poogle2.resolve_import`: join the current file's directory with the
dot-separated import name plus `.py` and return the path when such a
file exists. -/
def resolveImport (fs : FileSys) (currentFile importName : String) : Option String :=
  let potential := joinPath (dirname currentFile)
    (replaceDotSep importName ++ ".py")
  if (lookupList fs potential).isSome then some potential else none

/-- One step of `dora`'s import loop, read off an import statement:
`bindImport` is `import_map[alias.asname or alias.name] = alias.name`
for a plain `import`; `fromAlias` is one `ast.alias` of an
`ImportFrom`, which binds the alias and may recurse. -/
inductive Action where
  | bindImport (aname : String) (asname : Option String)
  | fromAlias (module : Option String) (aname : String) (asname : Option String)

/-- Flatten `for node in tree.body` into the per-alias actions processed
in order (only `Import` and `ImportFrom` statements contribute). -/
def stmtActions : Stmt → List Action
  | .importS names => names.map fun a => .bindImport a.aname a.asname
  | .importFrom module names => names.map fun a => .fromAlias module a.aname a.asname
  | _ => []

/-- The exceptions that can escape `poogle2.dora` (none are caught in
`dora` itself), plus the artificial out-of-fuel token of the model. -/
inductive PyErr where
  | ioError
  | parseFailure (e : ParseErr)
  | fuelExhausted
deriving DecidableEq, Repr

/-- Result of one `dora` call.  `outcome` is the returned results list or
the exception that escaped; `visitedFiles` and `importMap` are the
shared mutable `visited_files`/`import_map` as left behind (their
mutations survive an escaping exception in Python); `trace` records, in
order, the files actually parsed-and-scanned by this call, an
instrumentation used to state the visited-once invariant. -/
structure DoraOut where
  outcome : Except PyErr (List ResolvedOcc)
  visitedFiles : List String
  importMap : ImportMap
  trace : List String

/-- `full_imported_name`: `f"{module}.{imported_name}"` when the
`ImportFrom` has a module, the bare name otherwise. -/
def fullImportedName (module : Option String) (aname : String) : String :=
  match module with
  | some m => m ++ "." ++ aname
  | none => aname

/-- Joining a recursive `dora` call's outcome `r` onto the enclosing
call's state: `results.extend(imported_results)` on success, exception
propagation on failure (the results accumulated so far are lost, the
mutated visited set and import map are not). -/
def doraCombine (acc : DoraOut) (rs : List ResolvedOcc) (r : DoraOut) : DoraOut :=
  match r.outcome with
  | .error e => ⟨.error e, r.visitedFiles, r.importMap, acc.trace ++ r.trace⟩
  | .ok rs' => ⟨.ok (rs ++ rs'), r.visitedFiles, r.importMap, acc.trace ++ r.trace⟩

/-- One step of `dora`'s import loop over the flattened actions,
parameterised by the recursive entry `recur` (which is `dora` itself at
the decremented fuel).  A propagating exception (an `outcome` already in
`Except.error`) skips the remaining actions, modelling the `for` loop
aborted by the exception.  A `bindImport` action performs
`import_map[alias.asname or alias.name] = alias.name`.  A `fromAlias`
action binds `asname or name ↦ full_imported_name` and, when the target
is absent or equals the full name and the import resolves to an existing
file, recurses. -/
def doraStep (fs : FileSys) (target : Option String)
    (recur : String → List String → ImportMap → DoraOut) (filename : String)
    (acc : DoraOut) (act : Action) : DoraOut :=
  match acc.outcome with
  | .error _ => acc
  | .ok rs =>
    match act with
    | .bindImport aname asname =>
      { acc with importMap := (asname.getD aname, aname) :: acc.importMap }
    | .fromAlias module aname asname =>
      let full := fullImportedName module aname
      let imap' := (asname.getD aname, full) :: acc.importMap
      if targetHit target full then
        match resolveImport fs filename full with
        | some importedFile => doraCombine acc rs (recur importedFile acc.visitedFiles imap')
        | none => { acc with importMap := imap' }
      else { acc with importMap := imap' }

/-- `poogle2.dora`, with the recursion bounded by explicit fuel: the
fuel is decremented exactly when an unvisited, existing file is entered,
so any fuel larger than the number of files suffices (proved below).
Faithful ordering: the visited check, then `visited_files.add`, then
open+parse (failures escape uncaught), then `TypeFinder`, then the
results are resolved against the *incoming* `import_map`, and only then
is the import loop run over `tree.body`. -/
def dora (fs : FileSys) (target : Option String) :
    Nat → String → List String → ImportMap → DoraOut
  | 0, filename, visited, imap =>
    if filename ∈ visited then ⟨.ok [], visited, imap, []⟩
    else ⟨.error .fuelExhausted, visited, imap, []⟩
  | fuel' + 1, filename, visited, imap =>
    if filename ∈ visited then ⟨.ok [], visited, imap, []⟩
    else
      match lookupList fs filename with
      | none => ⟨.error .ioError, filename :: visited, imap, []⟩
      | some (.error e) => ⟨.error (.parseFailure e), filename :: visited, imap, []⟩
      | some (.ok pf) =>
        let own := (finderStmts target pf.body).map fun o =>
          ResolvedOcc.mk o.lineno o.colOffset o.occName o.exprKind
            ((lookupList imap o.occName).getD filename)
        let la := (pf.body.flatMap stmtActions).foldl
          (doraStep fs target (dora fs target fuel') filename)
          ⟨.ok [], filename :: visited, imap, []⟩
        ⟨la.outcome.map fun rs => own ++ rs,
         la.visitedFiles, la.importMap, filename :: la.trace⟩

/-- The number of files in the file system not yet in the visited set:
the quantity the fuel has to dominate, decremented exactly when `dora`
enters a new file. -/
def unvisitedCount (fs : FileSys) (visited : List String) : Nat :=
  ((fsNames fs).filter fun x => decide (x ∉ visited)).length

/-- The traversal invariant of one `dora` call relative to the incoming
visited set: the visited set only grows, and it grows by pairwise
distinct files that were not visited before; the parse trace is
duplicate-free and contained in the newly visited files; and with fuel
above the number of unvisited files the artificial out-of-fuel outcome
is unreachable (i.e. the real, fuel-free recursion terminates). -/
def DoraInv (fs : FileSys) (visited : List String) (fuel : Nat) (out : DoraOut) : Prop :=
  ∃ pre, out.visitedFiles = pre ++ visited
    ∧ pre.Nodup
    ∧ (∀ x ∈ pre, x ∉ visited)
    ∧ out.trace.Nodup
    ∧ (∀ x ∈ out.trace, x ∈ pre)
    ∧ (unvisitedCount fs visited < fuel → out.outcome ≠ .error .fuelExhausted)

end Poogle2

namespace SecondDora

open PySearch

/-- `second_dora.get_expr_type`: map AST node kinds to expression type
strings; `ast.Constant` uses the Python type name of the value. -/
def constTypeName : PyConst → String
  | .strC _ => "str"
  | .intC _ => "int"
  | .boolC _ => "bool"
  | .noneC => "NoneType"

/-- `second_dora.get_expr_type`. -/
def getExprType : PyExpr → String
  | .call _ _ _ => "CallExpr"
  | .name _ _ => "NameExpr"
  | .attrE _ _ _ => "AttributeExpr"
  | .subscriptE _ _ _ => "SubscriptExpr"
  | .constant _ v => constTypeName v ++ "Expr"
  | .binOp _ _ _ _ => "BinOpExpr"
  | .unaryOp _ _ => "UnaryOpExpr"
  | .listE _ _ => "ListExpr"
  | .tupleE _ _ => "TupleExpr"
  | .dictE _ _ _ => "DictExpr"
  | .lambdaE _ _ => "LambdaExpr"
  | .compare _ _ _ => "CompareExpr"
  | .boolOp _ _ => "BoolOpExpr"
  | .ifExp _ _ _ _ => "IfExpExpr"

/-- A single quote character, for Python `repr` of strings. -/
def squo : String := String.mk ['\'']

/-- Python `repr` for the constant payloads (string escaping inside the
literal is not modelled; no claim depends on it). -/
def pyRepr : PyConst → String
  | .strC s => squo ++ s ++ squo
  | .intC n => toString n
  | .boolC true => "True"
  | .boolC false => "False"
  | .noneC => "None"

mutual

/-- The worker behind `second_dora.get_fully_qualified_name`.  The Python
function takes an `aliases` argument but never reads it; the wrapper
`getFullyQualifiedName` below keeps that parameter. -/
def gfqnCore : PyExpr → String
  | .name _ i => i
  | .attrE _ v a =>
    let value := gfqnCore v
    if value = "" then a else value ++ "." ++ a
  | .subscriptE _ v s => gfqnCore v ++ "[" ++ gfqnCore s ++ "]"
  | .tupleE _ elts => strJoin ", " (gfqnCoreList elts)
  | .listE _ elts => strJoin ", " (gfqnCoreList elts)
  | .constant _ c => pyRepr c
  | _ => ""

/-- `get_fully_qualified_name` over element lists. -/
def gfqnCoreList : List PyExpr → List String
  | [] => []
  | e :: rest => gfqnCore e :: gfqnCoreList rest

end

/-- The package/alias information attached to one import binding:
`(full_name, source, (pkg_name, pkg_description))`. -/
structure AliasInfo where
  fullName : String
  source : String
  pkgName : Option String
  pkgDesc : Option String
deriving DecidableEq, Repr

/-- The alias dictionary of `second_dora.extract_imports`. -/
abbrev AliasMapSD := List (String × AliasInfo)

/-- `second_dora.get_fully_qualified_name(node, aliases)` - the `aliases`
parameter is accepted and ignored, exactly as in the source. -/
def getFullyQualifiedName (_aliases : AliasMapSD) (e : PyExpr) : String :=
  gfqnCore e

/-- The live Python package environment that `second_dora` probes:
`pkg_resources.working_set.by_key` (key to project name and
description), `sys.stdlib_module_names`, `importlib.util.find_spec`
origins, and which top-level modules `__import__` can load together
with their optional `__file__`. -/
structure PkgEnv where
  workingSet : List (String × String × String)
  stdlibNames : List String
  specOrigins : List (String × String)
  importable : List (String × Option String)

/-- `second_dora.get_package_info`: project metadata from the working
set keyed by the first dotted segment, else the standard-library
allow-list, else a classification of the module spec origin
(`'site-packages' in origin`, then `'python' in origin`), else nothing. -/
def getPackageInfo (env : PkgEnv) (moduleName : String) : Option String × Option String :=
  match lookupList env.workingSet (headSegment moduleName) with
  | some pd => (some pd.1, some pd.2)
  | none =>
    if moduleName ∈ env.stdlibNames then (some moduleName, some "Python Standard Library")
    else
      match lookupList env.specOrigins (headSegment moduleName) with
      | some origin =>
        if strContains origin "site-packages" then
          (some moduleName, some "Third-party package")
        else if strContains origin "python" then
          (some moduleName, some "Python Standard Library")
        else (none, none)
      | none => (none, none)

/-- `second_dora.extract_imports` over the top-level statements
(`ast.iter_child_nodes`): plain imports try `__import__` on the first
segment and record `(name, module.__file__ or name, package info)`;
`from`-imports record `(module.name, base module file or module,
package info of the module)`, with `from . import x` (no module)
recording the file's own directory and a `"Local module"` description. -/
def extractImports (env : PkgEnv) (filePath : String) : List Stmt → AliasMapSD
  | [] => []
  | .importS names :: rest =>
    (names.map fun a =>
      let asname := a.asname.getD a.aname
      match lookupList env.importable (headSegment a.aname) with
      | some fileOpt =>
        let pk := getPackageInfo env a.aname
        (asname, AliasInfo.mk a.aname (fileOpt.getD a.aname) pk.1 pk.2)
      | none => (asname, AliasInfo.mk a.aname a.aname none none))
    ++ extractImports env filePath rest
  | .importFrom module names :: rest =>
    (names.map fun a =>
      let asname := a.asname.getD a.aname
      let full := match module with
        | some m => m ++ "." ++ a.aname
        | none => a.aname
      match module with
      | some m =>
        (match lookupList env.importable (headSegment m) with
         | some fileOpt =>
           let pk := getPackageInfo env m
           (asname, AliasInfo.mk full (fileOpt.getD m) pk.1 pk.2)
         | none => (asname, AliasInfo.mk full m none none))
      | none =>
        (asname, AliasInfo.mk full (dirname filePath) none (some "Local module")))
    ++ extractImports env filePath rest
  | _ :: rest => extractImports env filePath rest

/-- The worker behind `second_dora.infer_type`; like
`get_fully_qualified_name` it never reads the alias map. -/
def inferTypeCore : PyExpr → String
  | .call _ f _ =>
    let fn := gfqnCore f
    if fn = "" then "Unknown" else fn
  | .name _ i => i
  | e@(.attrE _ _ _) => gfqnCore e
  | .constant _ c => constTypeName c
  | e@(.subscriptE _ _ _) => gfqnCore e
  | .binOp _ _ _ _ => "BinOp"
  | .unaryOp _ _ => "UnaryOp"
  | .listE _ _ => "List"
  | .tupleE _ _ => "Tuple"
  | .dictE _ _ _ => "Dict"
  | .lambdaE _ _ => "Lambda"
  | .compare _ _ _ => "Compare"
  | .boolOp _ _ => "BoolOp"
  | .ifExp _ _ _ _ => "IfExp"

/-- `second_dora.infer_type(node, aliases)` - the alias map is accepted
and (transitively) ignored, as in the source. -/
def inferType (_aliases : AliasMapSD) (e : PyExpr) : String :=
  inferTypeCore e

mutual

/-- `second_dora.extract_expressions`'s `ExprVisitor` on one expression:
collect `Call`, `Name`, `Attribute`, `Subscript` and `Constant` nodes,
then descend into children in AST field order. -/
def exprWalk : PyExpr → List PyExpr
  | e@(.call _ f args) => e :: (exprWalk f ++ exprWalkList args)
  | e@(.name _ _) => [e]
  | e@(.attrE _ v _) => e :: exprWalk v
  | e@(.subscriptE _ v s) => e :: (exprWalk v ++ exprWalk s)
  | e@(.constant _ _) => [e]
  | .tupleE _ elts => exprWalkList elts
  | .listE _ elts => exprWalkList elts
  | .binOp _ _ l r => exprWalk l ++ exprWalk r
  | .lambdaE _ b => exprWalk b
  | .compare _ l cs => exprWalk l ++ exprWalkList cs
  | .boolOp _ vs => exprWalkList vs
  | .unaryOp _ o => exprWalk o
  | .dictE _ ks vs => exprWalkList ks ++ exprWalkList vs
  | .ifExp _ t b o => exprWalk t ++ exprWalk b ++ exprWalk o

/-- `ExprVisitor` over a list of child expressions. -/
def exprWalkList : List PyExpr → List PyExpr
  | [] => []
  | e :: rest => exprWalk e ++ exprWalkList rest

end

mutual

/-- The expressions contained in a statement, in `generic_visit` field
order, as traversed by `ExprVisitor` (annotations of arguments appear as
ordinary expression children of the `arguments` node). -/
def stmtExprs : Stmt → List PyExpr
  | .importS _ => []
  | .importFrom _ _ => []
  | .exprStmt e => [e]
  | .annAssign _ tgt ann value =>
    [tgt, ann] ++ (match value with | some v => [v] | none => [])
  | .assign _ targets value _ => targets ++ [value]
  | .functionDef _ _ args kwonlyargs returns body =>
    args.filterMap Arg.ann ++ kwonlyargs.filterMap Arg.ann ++
      stmtExprsList body ++
      (match returns with | some r => [r] | none => [])
  | .classDef _ _ bases body => bases ++ stmtExprsList body
  | .passS => []

/-- Statement-list version of `stmtExprs`. -/
def stmtExprsList : List Stmt → List PyExpr
  | [] => []
  | s :: rest => stmtExprs s ++ stmtExprsList rest

end

/-- `second_dora.extract_expressions` over the whole tree. -/
def extractExpressions (body : List Stmt) : List PyExpr :=
  exprWalkList (stmtExprsList body)

mutual

/-- The `AnnotationExprVisitor` of
`second_dora.extract_annotations_and_exprs`: annotation nodes paired
with their rendered qualified name, walking into nested statement lists
via `generic_visit`.  Both renderers ignore the alias map, so this
worker takes none. -/
def annPairs : List Stmt → List (PyExpr × String)
  | [] => []
  | stmt :: rest => annPairsStmt stmt ++ annPairs rest

/-- `AnnotationExprVisitor` on one statement. -/
def annPairsStmt : Stmt → List (PyExpr × String)
  | .functionDef _ _ args kwonlyargs returns body =>
    ((args ++ kwonlyargs).filterMap Arg.ann).map (fun e => (e, gfqnCore e)) ++
      (match returns with | some r => [(r, gfqnCore r)] | none => []) ++
      annPairs body
  | .annAssign _ _ ann _ => [(ann, gfqnCore ann)]
  | .assign _ targets _ typeComment =>
    (match typeComment with
     | some tc => (targets.filter PyExpr.isName).map fun _ => (tc, gfqnCore tc)
     | none => [])
  | .classDef _ _ bases body =>
    bases.map (fun b => (b, gfqnCore b)) ++ annPairs body
  | _ => []

end

/-- `second_dora.extract_annotations_and_exprs`: the annotation pairs,
followed by every walked expression paired with its inferred type.  The
alias map is threaded through exactly as in the source, where it is
never read. -/
def extractAnnsAndExprs (aliases : AliasMapSD) (body : List Stmt) :
    List (PyExpr × String) :=
  annPairs body ++ (extractExpressions body).map fun e => (e, inferType aliases e)

/-- One result tuple of `second_dora.search_file`:
`(line_no, col_offset, type_str, expr_type, source_line, expr_str,
import_source, pkg_info)`. -/
structure MatchSD where
  lineNo : Nat
  colOffset : Nat
  typeStr : String
  exprType : String
  sourceLine : String
  exprStr : String
  importSource : Option String
  pkgInfo : Option (Option String × Option String)
deriving DecidableEq, Repr

/-- The environment-independent projection of a match: everything except
the import-source and package-info enrichment. -/
def MatchSD.proj (m : MatchSD) : Nat × Nat × String × String × String × String :=
  (m.lineNo, m.colOffset, m.typeStr, m.exprType, m.sourceLine, m.exprStr)

/-- The per-node loop of `second_dora.search_file`: look up the import
source and package info when the node is a `Name` bound in the alias
map, apply the target filter (`if target_type and type_str !=
target_type: continue`), and render the source line and matched span. -/
def processSD (aliases : AliasMapSD) (lines : List String) (target : Option String) :
    List (PyExpr × String) → List MatchSD
  | [] => []
  | (node, typeStr) :: rest =>
    let enrich : Option String × Option (Option String × Option String) :=
      match node with
      | .name _ i =>
        match lookupList aliases i with
        | some info =>
          (some (if strEndsWith info.source ".py" then basename info.source else info.source),
           some (info.pkgName, info.pkgDesc))
        | none => (none, none)
      | _ => (none, none)
    let keep := match target with
      | some t => typeStr == t
      | none => true
    if keep then
      let p := node.pos
      let rec1 :=
        if p.lineno - 1 < lines.length then
          let sourceLine := lines.getD (p.lineno - 1) ""
          let exprStr :=
            if p.endColOffset > p.colOffset then
              strSlice sourceLine p.colOffset p.endColOffset
            else strDropSlice sourceLine p.colOffset
          MatchSD.mk p.lineno p.colOffset typeStr (getExprType node)
            sourceLine exprStr enrich.1 enrich.2
        else
          MatchSD.mk p.lineno p.colOffset typeStr (getExprType node)
            "" "" enrich.1 enrich.2
      rec1 :: processSD aliases lines target rest
    else processSD aliases lines target rest

/-- Output of `second_dora.search_file`: result tuples plus the
diagnostics by stream (its skip message is printed with
`file=sys.stderr`). -/
structure SearchOutSD where
  results : List MatchSD
  stdoutMsgs : List String
  stderrMsgs : List String
deriving DecidableEq, Repr

/-- `second_dora.search_file`, taking the file's parse outcome
explicitly: on success it builds the alias map, extracts annotation and
expression pairs and processes them; a caught parse/decode failure
prints the skip diagnostic to the error stream and contributes no
matches. -/
def searchFileSD (env : PkgEnv) (content : Except ParseErr ParsedFile)
    (filePath : String) (target : Option String) : SearchOutSD :=
  match content with
  | .error e => ⟨[], [], [Poogle.skipMsg filePath e]⟩
  | .ok pf =>
    let aliases := extractImports env filePath pf.body
    ⟨processSD aliases pf.lines target (extractAnnsAndExprs aliases pf.body), [], []⟩

/-- `second_dora.main`'s per-file loop: every discovered file is
searched in order, independently of the other files' outcomes. -/
def mainSD (env : PkgEnv) (fs : FileSys) (target : Option String) : List SearchOutSD :=
  fs.map fun entry => searchFileSD env entry.2 entry.1 target

end SecondDora

namespace Poogle3

open PySearch

/-- `poogle3.TypeLocation` (the `file` field is the analyzed path). -/
structure TypeLocation where
  file : String
  line : Nat
  column : Nat
  typeName : String
  exprKind : String
  sourceLine : Option String
  sourceFile : Option String
deriving DecidableEq, Repr

/-- Exceptions escaping `poogle3.TypeAnalyzer.analyze_file` (nothing in
`poogle3` catches them), plus the artificial out-of-fuel token. -/
inductive Py3Err where
  | attributeError
  | ioError
  | parseFailure (e : ParseErr)
  | fuelExhausted
deriving DecidableEq, Repr

/-- `poogle3.TypeVisitor._handle_subscript(node, lineno)` with the
subscript node split into its position, `node.value` and `node.slice`.
The value and the slice each yield a `NameExpr` location when they are
plain names; the final `f"{node.value.id}[{node.slice.id}]"` reads `.id`
unconditionally, so any subscript whose base or slice is not a plain
`ast.Name` raises `AttributeError` there.  (In Python the earlier
appends have already mutated `self.locations` when the error fires; the
`Except` model returns no locations in that case, matching what
`analyze_file` delivers to its caller - nothing.)  The only exception
this visitor can raise is that `AttributeError`, so the failure is
modelled by `Option`: `none` is the escaping `AttributeError`. -/
def handleSubscript (filePath : String) (sourceLines : List String) (nodeCol : Nat)
    (value slice : PyExpr) (lineno : Nat) : Option (List TypeLocation) :=
  let locs1 := match value with
    | .name _ vid =>
      [TypeLocation.mk filePath lineno nodeCol vid "NameExpr"
        (some (stripStr (lineAt sourceLines lineno))) none]
    | _ => []
  let locs2 := match slice with
    | .name sp sid =>
      [TypeLocation.mk filePath lineno sp.colOffset sid "NameExpr"
        (some (stripStr (lineAt sourceLines lineno))) none]
    | _ => []
  match value.idField, slice.idField with
  | some vid, some sid =>
    some (locs1 ++ locs2 ++
      [TypeLocation.mk filePath lineno nodeCol (vid ++ "[" ++ sid ++ "]") "SubscriptExpr"
        (some (stripStr (lineAt sourceLines lineno))) none])
  | _, _ => none

mutual

/-- `poogle3.TypeVisitor` on one expression via the generic dispatch:
`visit_Name` records every name, `visit_Constant` records string
constants, and `generic_visit` descends into children in field order
(no `visit_Subscript` is defined, so subscripts met outside annotation
positions are only descended into). -/
def visitExpr3 (filePath : String) (sourceLines : List String) : PyExpr → List TypeLocation
  | .name p i =>
    [TypeLocation.mk filePath p.lineno p.colOffset i "NameExpr"
      (some (stripStr (lineAt sourceLines p.lineno))) none]
  | .constant p (.strC s) =>
    [TypeLocation.mk filePath p.lineno p.colOffset ("\"" ++ s ++ "\"") "strExpr"
      (some (stripStr (lineAt sourceLines p.lineno))) none]
  | .constant _ _ => []
  | .attrE _ v _ => visitExpr3 filePath sourceLines v
  | .subscriptE _ v s =>
    visitExpr3 filePath sourceLines v ++ visitExpr3 filePath sourceLines s
  | .tupleE _ elts => visitExprList3 filePath sourceLines elts
  | .listE _ elts => visitExprList3 filePath sourceLines elts
  | .binOp _ _ l r =>
    visitExpr3 filePath sourceLines l ++ visitExpr3 filePath sourceLines r
  | .call _ f args =>
    visitExpr3 filePath sourceLines f ++ visitExprList3 filePath sourceLines args
  | .lambdaE _ b => visitExpr3 filePath sourceLines b
  | .compare _ l cs =>
    visitExpr3 filePath sourceLines l ++ visitExprList3 filePath sourceLines cs
  | .boolOp _ vs => visitExprList3 filePath sourceLines vs
  | .unaryOp _ o => visitExpr3 filePath sourceLines o
  | .dictE _ ks vs =>
    visitExprList3 filePath sourceLines ks ++ visitExprList3 filePath sourceLines vs
  | .ifExp _ t b o =>
    visitExpr3 filePath sourceLines t ++ visitExpr3 filePath sourceLines b ++
      visitExpr3 filePath sourceLines o

/-- Generic dispatch over a list of child expressions. -/
def visitExprList3 (filePath : String) (sourceLines : List String) :
    List PyExpr → List TypeLocation
  | [] => []
  | e :: rest =>
    visitExpr3 filePath sourceLines e ++ visitExprList3 filePath sourceLines rest

end

/-- `visit_FunctionDef`'s argument loop: a `Name` annotation is recorded
at the *function's* line with the argument's column; a `Subscript`
annotation goes through `_handle_subscript`; other annotation shapes
are ignored. -/
def visitArgs3 (filePath : String) (sourceLines : List String) (funLine : Nat) :
    List Arg → Option (List TypeLocation)
  | [] => some []
  | a :: rest =>
    let first : Option (List TypeLocation) :=
      match a.ann with
      | some (.name _ i) =>
        some [TypeLocation.mk filePath funLine a.argCol i "NameExpr"
          (some (stripStr (lineAt sourceLines funLine))) none]
      | some (.subscriptE p v s) => handleSubscript filePath sourceLines p.colOffset v s funLine
      | _ => some []
    match first with
    | none => none
    | some locs =>
      match visitArgs3 filePath sourceLines funLine rest with
      | none => none
      | some locs' => some (locs ++ locs')

mutual

/-- `poogle3.TypeVisitor` on one statement.  `visit_FunctionDef` handles
`node.args.args` (not the keyword-only arguments) and the return
annotation, then `generic_visit` re-walks every child expression -
annotations included, which is why names inside annotations are also
recorded a second time by `visit_Name` - and the nested body.
`visit_AnnAssign` records the target name, handles the annotation,
visits the value explicitly, then `generic_visit` re-walks all three.
`visit_Assign` records `Name` targets, visits the value, then
`generic_visit` re-walks targets and value. -/
def visitStmt3 (filePath : String) (sourceLines : List String) :
    Stmt → Option (List TypeLocation)
  | .functionDef pos _ args kwonlyargs returns body =>
    (match visitArgs3 filePath sourceLines pos.lineno args with
     | none => none
     | some argLocs =>
       let retFirst : Option (List TypeLocation) :=
         match returns with
         | some (.name _ i) =>
           some [TypeLocation.mk filePath pos.lineno pos.colOffset i "NameExpr"
             (some (stripStr (lineAt sourceLines pos.lineno))) none]
         | some (.subscriptE p v s) =>
           handleSubscript filePath sourceLines p.colOffset v s pos.lineno
         | _ => some []
       match retFirst with
       | none => none
       | some retLocs =>
         let genericAnns :=
           visitExprList3 filePath sourceLines (args.filterMap Arg.ann) ++
             visitExprList3 filePath sourceLines (kwonlyargs.filterMap Arg.ann)
         match visitStmts3 filePath sourceLines body with
         | none => none
         | some bodyLocs =>
           let retGeneric := match returns with
             | some r => visitExpr3 filePath sourceLines r
             | none => []
           some (argLocs ++ retLocs ++ genericAnns ++ bodyLocs ++ retGeneric))
  | .annAssign pos tgt ann value =>
    let tgtLocs := match tgt with
      | .name _ i =>
        [TypeLocation.mk filePath pos.lineno tgt.pos.colOffset i "NameExpr"
          (some (stripStr (lineAt sourceLines pos.lineno))) none]
      | _ => []
    let annFirst : Option (List TypeLocation) :=
      match ann with
      | .name _ i =>
        some [TypeLocation.mk filePath pos.lineno ann.pos.colOffset i "NameExpr"
          (some (stripStr (lineAt sourceLines pos.lineno))) none]
      | .subscriptE p v s => handleSubscript filePath sourceLines p.colOffset v s pos.lineno
      | _ => some []
    (match annFirst with
     | none => none
     | some annLocs =>
       let valueVisit := match value with
         | some v => visitExpr3 filePath sourceLines v
         | none => []
       let genericLocs :=
         visitExpr3 filePath sourceLines tgt ++ visitExpr3 filePath sourceLines ann ++
           (match value with | some v => visitExpr3 filePath sourceLines v | none => [])
       some (tgtLocs ++ annLocs ++ valueVisit ++ genericLocs))
  | .assign pos targets value _ =>
    let tgtLocs := targets.filterMap fun t =>
      match t with
      | .name _ i =>
        some (TypeLocation.mk filePath pos.lineno t.pos.colOffset i "NameExpr"
          (some (stripStr (lineAt sourceLines pos.lineno))) none)
      | _ => none
    some (tgtLocs ++ visitExpr3 filePath sourceLines value ++
      visitExprList3 filePath sourceLines targets ++ visitExpr3 filePath sourceLines value)
  | .exprStmt e => some (visitExpr3 filePath sourceLines e)
  | .classDef _ _ bases body =>
    (match visitStmts3 filePath sourceLines body with
     | none => none
     | some bodyLocs => some (visitExprList3 filePath sourceLines bases ++ bodyLocs))
  | .importS _ => some []
  | .importFrom _ _ => some []
  | .passS => some []

/-- `TypeVisitor` over a statement list, stopping at the first escaping
exception. -/
def visitStmts3 (filePath : String) (sourceLines : List String) :
    List Stmt → Option (List TypeLocation)
  | [] => some []
  | s :: rest =>
    match visitStmt3 filePath sourceLines s with
    | none => none
    | some locs =>
      match visitStmts3 filePath sourceLines rest with
      | none => none
      | some locs' => some (locs ++ locs')

end

/-- `poogle3.ImportTracker.BUILTIN_MODULES`. -/
def BUILTIN_MODULES : List String :=
  ["typing", "collections", "datetime", "os", "sys", "pathlib",
   "json", "re", "math", "random", "time", "itertools", "functools"]

/-- `Path(file_path).parent` joined with the dotted module parts plus the
`.py` suffix, as built by `ImportTracker.analyze_imports` (and, with
`os.path` functions, by `poogle2.resolve_import`): for a file in the
current directory the parent contributes nothing. -/
def modulePath3 (filePath moduleName : String) : String :=
  joinPath (dirname filePath) (replaceDotSep moduleName ++ ".py")

mutual

/-- The import statements reachable from a statement list.
`analyze_imports` uses `ast.walk`, which enumerates nodes breadth-first;
this model walks depth-first.  The two orders produce the same binding
map unless the same imported name is bound at several nesting depths,
a case nothing in this development relies on. -/
def collectImportStmts : List Stmt → List Stmt
  | [] => []
  | s :: rest => collectImportStmtsOne s ++ collectImportStmts rest

/-- Import statements inside one statement. -/
def collectImportStmtsOne : Stmt → List Stmt
  | s@(.importS _) => [s]
  | s@(.importFrom _ _) => [s]
  | .functionDef _ _ _ _ _ body => collectImportStmts body
  | .classDef _ _ _ body => collectImportStmts body
  | _ => []

end

/-- Apply `ImportTracker.analyze_imports` for one file to the running
`imports` dictionary: `from m import a, b` (module known, not built-in)
binds each *original* name to the module path; `import m` (not
built-in) binds the dotted module name to its path; `from . import x`
(no module) binds nothing. -/
def analyzeImportsUpd (imports : List (String × String)) (filePath : String)
    (body : List Stmt) : List (String × String) :=
  (collectImportStmts body).foldl (fun acc s =>
    match s with
    | .importFrom (some m) names =>
      if m ∈ BUILTIN_MODULES then acc
      else (names.map fun a => (a.aname, modulePath3 filePath m)) ++ acc
    | .importS names =>
      names.foldl (fun acc2 a =>
        if a.aname ∈ BUILTIN_MODULES then acc2
        else (a.aname, modulePath3 filePath a.aname) :: acc2) acc
    | _ => acc) imports

/-- The state of a `poogle3.TypeAnalyzer` object: `analyzed_files`,
the accumulated `locations`, and the shared `ImportTracker`'s map. -/
structure AnalyzerState where
  analyzedFiles : List String
  locations : List TypeLocation
  imports : List (String × String)
deriving DecidableEq, Repr

/-- A fresh `TypeAnalyzer()`. -/
def initAnalyzer : AnalyzerState := ⟨[], [], []⟩

/-- `type_pattern is None or type_pattern in type_name`. -/
def patternHit (pattern : Option String) (typeName : String) : Bool :=
  match pattern with
  | none => true
  | some p => strContains typeName p

/-- `if type_name in self.import_tracker.imports: location.source_file =
self.import_tracker.imports[type_name]`. -/
def resolveLoc (imports : List (String × String)) (loc : TypeLocation) : TypeLocation :=
  match lookupList imports loc.typeName with
  | some origin => { loc with sourceFile := some origin }
  | none => loc

/-- One step of the location loop at the end of `analyze_file`,
parameterised by the recursive entry `recur` (which is `analyzeFile3` at
the decremented fuel): resolve `source_file` from the import map, filter
by the substring pattern, append the location, and recurse into the
resolved origin file.  A propagating exception skips the remaining
locations, modelling the aborted loop. -/
def analyzeStep (pattern : Option String)
    (recur : AnalyzerState → String → Except Py3Err AnalyzerState)
    (acc : Except Py3Err AnalyzerState) (loc : TypeLocation) :
    Except Py3Err AnalyzerState :=
  match acc with
  | .error e => .error e
  | .ok st =>
    let loc' := resolveLoc st.imports loc
    if patternHit pattern loc'.typeName then
      let st' : AnalyzerState := { st with locations := st.locations ++ [loc'] }
      match loc'.sourceFile with
      | some origin => recur st' origin
      | none => .ok st'
    else .ok st

/-- `poogle3.TypeAnalyzer.analyze_file`, fuel-bounded like `dora` (the
fuel is decremented exactly when an unanalyzed file is entered): if the
file was already analyzed, return the state unchanged (the Python method
returns the accumulated `self.locations`); otherwise mark it, run
`analyze_imports` *before* any expression scanning, parse and visit,
then run the location loop.  Escaping exceptions (parse failure,
unreadable file, the `AttributeError` from `_handle_subscript`) are
modelled by the `Except.error` case; Python's in-place mutations up to
that point survive in the real object but no result is returned, which
is what the error case captures. -/
def analyzeFile3 (fs : FileSys) (pattern : Option String) :
    Nat → AnalyzerState → String → Except Py3Err AnalyzerState
  | 0, st, filePath =>
    if filePath ∈ st.analyzedFiles then .ok st else .error .fuelExhausted
  | fuel' + 1, st, filePath =>
    if filePath ∈ st.analyzedFiles then .ok st
    else
      let st1 : AnalyzerState := { st with analyzedFiles := filePath :: st.analyzedFiles }
      match lookupList fs filePath with
      | none => .error .ioError
      | some (.error e) => .error (.parseFailure e)
      | some (.ok pf) =>
        let st2 : AnalyzerState :=
          { st1 with imports := analyzeImportsUpd st1.imports filePath pf.body }
        match visitStmts3 filePath pf.lines pf.body with
        | none => .error .attributeError
        | some locs =>
          locs.foldl (analyzeStep pattern (analyzeFile3 fs pattern fuel')) (.ok st2)

/-- The analyzer invariant of one `analyze_file` call relative to the
incoming `analyzed_files` set: a successful call grows the set by
pairwise distinct, previously unanalyzed files (so every file is parsed
and indexed at most once), and with fuel above the number of unanalyzed
files the artificial out-of-fuel outcome is unreachable (i.e. the real,
fuel-free recursion terminates). -/
def AnalyzeInv (fs : FileSys) (analyzed0 : List String) (fuel : Nat)
    (res : Except Py3Err AnalyzerState) : Prop :=
  (∀ st, res = .ok st → ∃ pre, st.analyzedFiles = pre ++ analyzed0
      ∧ pre.Nodup ∧ (∀ x ∈ pre, x ∉ analyzed0))
  ∧ (Poogle2.unvisitedCount fs analyzed0 < fuel → res ≠ .error .fuelExhausted)

end Poogle3

namespace Fixtures

open PySearch Poogle Poogle2 Poogle3 SecondDora

/-- A default position for nodes whose exact coordinates are irrelevant. -/
def p0 : Pos := ⟨1, 0, 1⟩

/-- The parsed annotation `List[int]`. -/
def listIntAnn : PyExpr := .subscriptE p0 (.name p0 "List") (.name p0 "int")

/-- The parsed annotation `Dict[str, int]`: the slice of a multi-argument
generic is an `ast.Tuple`. -/
def dictStrIntAnn : PyExpr :=
  .subscriptE p0 (.name p0 "Dict") (.tupleE p0 [.name p0 "str", .name p0 "int"])

/-- The parsed annotation `int | None`: the right operand of the union is
the `None` literal, an `ast.Constant`. -/
def intOrNoneAnn : PyExpr := .binOp p0 .bitOr (.name p0 "int") (.constant p0 .noneC)

/-- The parsed expression `pkg.Type`. -/
def pkgTypeAnn : PyExpr := .attrE p0 (.name p0 "pkg") "Type"

/-- The body of a file that binds `T` by `from m import T` and then
mentions `T`. -/
def ownImportBody : List Stmt :=
  [.importFrom (some "m") [⟨"T", none⟩], .exprStmt (.name ⟨2, 0, 1⟩ "T")]

/-- A one-file system holding that file; `m/T.py` does not exist, so no
recursion fires. -/
def fsOwnImport : FileSys :=
  [("a.py", .ok ⟨ownImportBody, ["from m import T", "T"]⟩)]

/-- A root file importing (via `from . import b`) a sibling whose source
is malformed, so `ast.parse` raises inside the recursive `dora` call. -/
def fsBadImport : FileSys :=
  [("a.py", .ok ⟨[.importFrom none [⟨"b", none⟩]], ["from . import b"]⟩),
   ("b.py", .error (.invalidSource "invalid syntax (b.py, line 1)"))]

/-- `a.py` binds `T` by `from b import T` and mentions `T`; `b.py`
exists and is empty.  Used against the `poogle3` analyzer. -/
def fsLocalImport : FileSys :=
  [("a.py", .ok ⟨[.importFrom (some "b") [⟨"T", none⟩], .exprStmt (.name ⟨2, 0, 1⟩ "T")],
    ["from b import T", "T"]⟩),
   ("b.py", .ok ⟨[], []⟩)]

/-- An environment in which the module `foo` is importable from
`site-packages` and has working-set metadata. -/
def envWithFoo : PkgEnv :=
  ⟨[("foo", ("foo", "A demo package"))], [], [], [("foo", some "site-packages/foo.py")]⟩

/-- An environment in which no module is importable and no metadata
exists. -/
def envEmpty : PkgEnv := ⟨[], [], [], []⟩

/-- A file that imports `foo` and then mentions it. -/
def fileImportFoo : Except ParseErr ParsedFile :=
  .ok ⟨[.importS [⟨"foo", none⟩], .exprStmt (.name ⟨2, 0, 3⟩ "foo")], ["import foo", "foo"]⟩

/-- The source lines of the single-function file used against
`_handle_subscript`. -/
def subLines : List String := ["def f(x: Sub): ..."]

/-- A one-file system whose file is `def f` with a single parameter whose
annotation is the subscript `v[s]` for the given base and slice. -/
def fsWithSubscript (v s : PyExpr) : FileSys :=
  [("p.py", .ok ⟨[.functionDef ⟨1, 0, 18⟩ "f"
      [⟨"x", 6, some (.subscriptE ⟨1, 9, 12⟩ v s)⟩] [] none []], subLines⟩)]

end Fixtures

namespace Claims

open PySearch Poogle Poogle2 Poogle3 SecondDora Fixtures

/-- Claim C1: the matcher reports a match on a Subscript node iff the
base or the subscript argument matches; in particular `int` is found in
`List[int]` and in `Dict[str, int]`, and `Dict` is found in
`Dict[str, int]`. -/
theorem c1_subscript_match :
    (∀ (p : Pos) (v s : PyExpr) (t : String),
      Poogle.type_matches (.subscriptE p v s) t
        = (Poogle.type_matches v t || Poogle.type_matches s t))
    ∧ Poogle.type_matches listIntAnn "int" = true
    ∧ Poogle.type_matches dictStrIntAnn "int" = true
    ∧ Poogle.type_matches dictStrIntAnn "Dict" = true :=
  ⟨fun _ _ _ _ => rfl, rfl, rfl, rfl⟩

/-- Claim C2, counterexample: the claim asserts that `int | None`
matches a search for `None`, but `type_matches` has no case for
`ast.Constant` - and the literal `None` in an annotation is an
`ast.Constant` - so the search reports no match. -/
theorem c2_counterexample :
    Poogle.type_matches intOrNoneAnn "None" = false := rfl

/-- Claim C2 as amended: a `|`-union of two type expressions matches iff
either side matches, and `int | None` matches a search for `int`; but a
search for `None` does not match `int | None`, because the `None`
literal parses as a constant, which never matches any target. -/
theorem c2_union_match :
    (∀ (p : Pos) (l r : PyExpr) (t : String),
      Poogle.type_matches (.binOp p .bitOr l r) t
        = (Poogle.type_matches l t || Poogle.type_matches r t))
    ∧ Poogle.type_matches intOrNoneAnn "int" = true
    ∧ (∀ (p : Pos) (c : PyConst) (t : String),
        Poogle.type_matches (.constant p c) t = false)
    ∧ Poogle.type_matches intOrNoneAnn "None" = false :=
  ⟨fun _ _ _ _ => rfl, rfl, fun _ _ _ => rfl, rfl⟩

/-- Claim C7, counterexample: `poogle2`'s `TypeFinder.visit_Attribute`
compares the *full dotted name* with the target, so a search for `Type`
reports nothing on `pkg.Type`, although the trailing member name equals
the target. -/
theorem c7_counterexample :
    Poogle2.finderExpr (some "Type") pkgTypeAnn = [] := rfl

/-- Claim C7 as amended: `poogle.type_matches` matches an Attribute node
iff its trailing member name equals the target, qualification ignored;
but `poogle2`'s `TypeFinder` records an attribute (whose base is a plain
name) iff the full dotted name equals the target, so there a search for
`Type` does not match `pkg.Type` while a search for `pkg.Type` does. -/
theorem c7_attribute_match :
    (∀ (p : Pos) (v : PyExpr) (a t : String),
      Poogle.type_matches (.attrE p v a) t = (a == t))
    ∧ Poogle2.finderExpr (some "Type") pkgTypeAnn = []
    ∧ Poogle2.finderExpr (some "pkg.Type") pkgTypeAnn
        = [⟨1, 0, "pkg.Type", "AttributeExpr"⟩] :=
  ⟨fun _ _ _ _ => rfl, rfl, rfl⟩

end Claims

namespace Claims

open PySearch Poogle Poogle2 Poogle3 SecondDora Fixtures

/-- Claim C4, counterexample: `poogle2.dora` contains no exception
handler, so when the root imports a malformed sibling the `SyntaxError`
raised while parsing `b.py` escapes the whole traversal - the claim's
"catches the failure … and the traversal continues … without raising"
fails on this variant. -/
theorem c4_counterexample :
    (dora fsBadImport none 3 "a.py" [] []).outcome
      = .error (.parseFailure (.invalidSource "invalid syntax (b.py, line 1)")) := rfl

/-- Claim C4 as amended: in `poogle.search_file` and
`second_dora.search_file` a malformed or undecodable file is caught per
file, reported as a skip diagnostic, contributes zero occurrences, and
the drivers keep processing every other file; in `poogle2.dora`,
however, the failure is uncaught and aborts the whole traversal (see the
counterexample). -/
theorem c4_parse_failure_handling :
    ∀ (e : ParseErr) (p t : String) (env : PkgEnv) (tgt : Option String)
      (fs1 fs2 : FileSys),
      searchFileP (.error e) p t = ⟨[], [skipMsg p e], []⟩
      ∧ searchFileSD env (.error e) p tgt = ⟨[], [], [skipMsg p e]⟩
      ∧ mainP (fs1 ++ (p, .error e) :: fs2) t
          = mainP fs1 t ++ ⟨[], [skipMsg p e], []⟩ :: mainP fs2 t
      ∧ mainSD env (fs1 ++ (p, .error e) :: fs2) tgt
          = mainSD env fs1 tgt ++ ⟨[], [], [skipMsg p e]⟩ :: mainSD env fs2 tgt := by
  intro e p t env tgt fs1 fs2
  refine ⟨rfl, rfl, ?_, ?_⟩
  · simp [mainP, searchFileP]
  · simp [mainSD, searchFileSD]

/-- Claim C8, counterexample: `poogle.search_file` prints its skip
diagnostic with a plain `print`, which writes to standard output - the
claim's "written to the error stream (not standard output)" fails on
this variant (the standard-output component carries the message and the
error-stream component is empty). -/
theorem c8_counterexample :
    searchFileP (.error (.invalidSource "invalid syntax (bad.py, line 1)")) "bad.py" "int"
      = ⟨[], ["Skipping bad.py: invalid syntax (bad.py, line 1)"], []⟩ := rfl

/-- Claim C8 as amended: each diagnostic is the message `"Skipping "`
followed by the offending file path and the exception text, and does not
halt processing of the remaining files; `second_dora.search_file` writes
it to the error stream, but `poogle.search_file` writes the same message
to standard output. -/
theorem c8_diagnostic_streams :
    ∀ (e : ParseErr) (p t : String) (env : PkgEnv) (tgt : Option String)
      (fs1 fs2 : FileSys),
      (searchFileSD env (.error e) p tgt).stderrMsgs
          = ["Skipping " ++ p ++ ": " ++ e.msg]
      ∧ (searchFileSD env (.error e) p tgt).stdoutMsgs = []
      ∧ (searchFileP (.error e) p t).stdoutMsgs
          = ["Skipping " ++ p ++ ": " ++ e.msg]
      ∧ (searchFileP (.error e) p t).stderrMsgs = []
      ∧ mainSD env (fs1 ++ (p, .error e) :: fs2) tgt
          = mainSD env fs1 tgt ++ ⟨[], [], [skipMsg p e]⟩ :: mainSD env fs2 tgt := by
  intro e p t env tgt fs1 fs2
  refine ⟨rfl, rfl, rfl, rfl, ?_⟩
  simp [mainSD, searchFileSD]

/-- Claim C6: a traversal call on a file already in the visited set
returns the empty contribution: `poogle2.dora` returns `[]` and leaves
the visited set and import map untouched, and
`poogle3.TypeAnalyzer.analyze_file` returns the analyzer state unchanged
(the Python method returns the already-accumulated `self.locations`
without adding anything). -/
theorem c6_visited_guard :
    (∀ (fs : FileSys) (t : Option String) (fuel : Nat) (f : String)
       (visited : List String) (imap : ImportMap), f ∈ visited →
       dora fs t fuel f visited imap = ⟨.ok [], visited, imap, []⟩)
    ∧ (∀ (fs : FileSys) (pat : Option String) (fuel : Nat) (st : AnalyzerState)
       (p : String), p ∈ st.analyzedFiles →
       analyzeFile3 fs pat fuel st p = .ok st) := by
  constructor
  · intro fs t fuel f visited imap h
    cases fuel <;> simp [dora, h]
  · intro fs pat fuel st p h
    cases fuel <;> simp [analyzeFile3, h]

/-- Claim C6, witness: the guard at work on concrete inputs. -/
theorem c6_visited_guard_witness :
    dora [] none 7 "x.py" ["x.py"] [] = ⟨.ok [], ["x.py"], [], []⟩
    ∧ analyzeFile3 [] none 7 ⟨["x.py"], [], []⟩ "x.py" = .ok ⟨["x.py"], [], []⟩ :=
  ⟨c6_visited_guard.1 [] none 7 "x.py" ["x.py"] [] (by decide),
   c6_visited_guard.2 [] none 7 ⟨["x.py"], [], []⟩ "x.py" (by decide)⟩

/-- Claim C9, counterexample: with the same file contents and the same
(absent) pattern, two different installed-package environments give
`second_dora.search_file` different result lists (the import-source and
package-info columns change), so the engine is not a function of the
file set and the pattern alone. -/
theorem c9_counterexample :
    searchFileSD envWithFoo fileImportFoo "a.py" none
      ≠ searchFileSD envEmpty fileImportFoo "a.py" none := by decide

end Claims

namespace Poogle3

open PySearch

/-- `_handle_subscript` succeeds exactly when both the base and the slice
are plain `ast.Name` nodes (otherwise the unconditional `.id` accesses
in the composed-display step raise `AttributeError`). -/
theorem handleSubscript_ok_iff (fp : String) (lines : List String) (c : Nat)
    (v s : PyExpr) (l : Nat) :
    (∃ locs, handleSubscript fp lines c v s l = some locs) ↔
      (v.isName = true ∧ s.isName = true) := by
  cases v <;> cases s <;> simp [handleSubscript, PyExpr.idField, PyExpr.isName]

/-- `_handle_subscript` raises `AttributeError` whenever the base or the
slice is not a plain `ast.Name`. -/
theorem handleSubscript_error (fp : String) (lines : List String) (c : Nat)
    (v s : PyExpr) (l : Nat) (h : ¬(v.isName = true ∧ s.isName = true)) :
    handleSubscript fp lines c v s l = none := by
  cases v <;> cases s <;> simp_all [handleSubscript, PyExpr.idField, PyExpr.isName]

end Poogle3

namespace Claims

open PySearch Poogle Poogle2 Poogle3 SecondDora Fixtures

/-- Claim C10: in `poogle3`, `_handle_subscript` is total exactly on
subscripts whose base and slice are both plain names - its
composed-display step `f"{node.value.id}[{node.slice.id}]"` reads the
`id` field unconditionally - and for any function-parameter annotation
`v[s]` where the base or the slice is not a plain name, the
`AttributeError` branch is reachable and indexing the file aborts with
that error instead of recording occurrences. -/
theorem c10_subscript_totality :
    (∀ (fp : String) (lines : List String) (c : Nat) (v s : PyExpr) (l : Nat),
      (∃ locs, handleSubscript fp lines c v s l = some locs) ↔
        (v.isName = true ∧ s.isName = true))
    ∧ (∀ (v s : PyExpr), ¬(v.isName = true ∧ s.isName = true) →
       ∀ (pat : Option String) (fuel : Nat),
         analyzeFile3 (fsWithSubscript v s) pat (fuel + 1) initAnalyzer "p.py"
           = .error .attributeError) := by
  constructor
  · exact handleSubscript_ok_iff
  · intro v s h pat fuel
    have hh := handleSubscript_error "p.py" subLines 9 v s 1 h
    simp [analyzeFile3, fsWithSubscript, initAnalyzer, lookupList, analyzeImportsUpd,
      collectImportStmts, collectImportStmtsOne, visitStmts3, visitStmt3, visitArgs3, hh]

/-- Claim C10, witness: indexing a file whose only annotation is
`Dict[str, int]` (tuple slice) aborts with `AttributeError`. -/
theorem c10_subscript_totality_witness :
    analyzeFile3
      (fsWithSubscript (.name ⟨1, 9, 13⟩ "Dict")
        (.tupleE ⟨1, 14, 22⟩ [.name ⟨1, 14, 17⟩ "str", .name ⟨1, 19, 22⟩ "int"]))
      none 1 initAnalyzer "p.py" = .error .attributeError :=
  c10_subscript_totality.2 _ _ (by decide) none 0

end Claims

namespace Claims

open PySearch Poogle Poogle2 Poogle3 SecondDora Fixtures

/-- Claim C5, counterexample: in `poogle2.dora` the import map is updated
only *after* a file's occurrences have been resolved, so with a fresh
traversal of a file that itself binds `T` by `from m import T` and then
mentions `T`, the occurrence of `T` resolves to the file itself
(`"a.py"`) - not to the origin `"m.T"` that the file's own import binds,
even though that binding is present in the map afterwards. -/
theorem c5_counterexample :
    (dora fsOwnImport none 2 "a.py" [] []).outcome
        = .ok [⟨2, 0, "T", "NameExpr", "a.py"⟩]
    ∧ (dora fsOwnImport none 2 "a.py" [] []).importMap = [("T", "m.T")] :=
  ⟨rfl, rfl⟩

/-- Claim C5 as amended: in `poogle3` each file's import bindings are
recorded before its expression scan, so occurrences resolve against a
map that includes the file's own bindings; in `poogle2.dora`, however, a
file's occurrences are always resolved against the import map as it
stood when the call began (bindings accumulated from previously
processed files), the file's own bindings being recorded only after the
scan. -/
theorem c5_alias_timing :
    (∀ (fs : FileSys) (t : Option String) (fuel : Nat) (f : String)
       (visited : List String) (imap : ImportMap) (pf : ParsedFile)
       (res : List ResolvedOcc),
      f ∉ visited → lookupList fs f = some (.ok pf) →
      (dora fs t (fuel + 1) f visited imap).outcome = .ok res →
      ∃ rest, res = (finderStmts t pf.body).map (fun o =>
          ResolvedOcc.mk o.lineno o.colOffset o.occName o.exprKind
            ((lookupList imap o.occName).getD f)) ++ rest)
    ∧ analyzeFile3 fsLocalImport none 2 initAnalyzer "a.py"
        = .ok ⟨["b.py", "a.py"],
            [⟨"a.py", 2, 0, "T", "NameExpr", some "T", some "b.py"⟩],
            [("T", "b.py")]⟩ := by
  constructor
  · intro fs t fuel f visited imap pf res hnv hlook hout
    simp only [dora, hnv, hlook, if_neg, ite_false, not_false_iff] at hout
    cases hla : (List.foldl (doraStep fs t (dora fs t fuel) f)
        ⟨.ok [], f :: visited, imap, []⟩ (pf.body.flatMap stmtActions)).outcome with
    | error e => rw [hla] at hout; simp [Except.map] at hout
    | ok rs =>
      rw [hla] at hout
      simp only [Except.map, Except.ok.injEq] at hout
      exact ⟨rs, hout.symm⟩
  · rfl

/-- Claim C5, witness: the decomposition applied to the concrete
traversal of the counterexample file: its single occurrence is the
occurrence list of the file resolved against the *empty* incoming map
(hence `"a.py"` as source), with no recursive contribution. -/
theorem c5_alias_timing_witness :
    ∃ rest, ([⟨2, 0, "T", "NameExpr", "a.py"⟩] : List ResolvedOcc)
      = (finderStmts none ownImportBody).map (fun o =>
          ResolvedOcc.mk o.lineno o.colOffset o.occName o.exprKind
            ((lookupList [] o.occName).getD "a.py")) ++ rest :=
  c5_alias_timing.1 fsOwnImport none 1 "a.py" [] []
    ⟨ownImportBody, ["from m import T", "T"]⟩ _ (by decide) rfl rfl

end Claims

namespace SecondDora

open PySearch

/-- The per-node loop of `second_dora.search_file` depends on the alias
map only through the import-source and package-info columns: under the
environment-independent projection the output is the same for any two
alias maps. -/
theorem processSD_proj_irrel :
    ∀ (pairs : List (PyExpr × String)) (a1 a2 : AliasMapSD) (lines : List String)
      (target : Option String),
      (processSD a1 lines target pairs).map MatchSD.proj
        = (processSD a2 lines target pairs).map MatchSD.proj := by
  intro pairs
  induction pairs with
  | nil => intro a1 a2 lines target; rfl
  | cons hd tl ih =>
    intro a1 a2 lines target
    obtain ⟨node, typeStr⟩ := hd
    cases target with
    | none =>
      simp only [processSD]
      by_cases hc : node.pos.lineno - 1 < lines.length <;>
        (simp [hc, MatchSD.proj]; exact ih a1 a2 lines none)
    | some t =>
      simp only [processSD]
      by_cases hk : (typeStr == t) = true <;>
        by_cases hc : node.pos.lineno - 1 < lines.length <;>
          (simp [hk, hc, MatchSD.proj]; exact ih a1 a2 lines (some t))

end SecondDora

namespace Claims

open PySearch Poogle Poogle2 Poogle3 SecondDora Fixtures

/-- Claim C9 as amended: running the traversal twice on the same file
set with the same pattern yields identical results only if the
installed-package environment is also unchanged; the line, column, name,
expression-kind, source-line and span columns of
`second_dora.search_file` are a function of the file contents and the
pattern alone, and so are the diagnostics, while the import-source and
package-info columns depend on the live environment (see the
counterexample). -/
theorem c9_projection_determinism :
    ∀ (env1 env2 : PkgEnv) (content : Except ParseErr ParsedFile)
      (fp : String) (tgt : Option String),
      (searchFileSD env1 content fp tgt).results.map MatchSD.proj
          = (searchFileSD env2 content fp tgt).results.map MatchSD.proj
      ∧ (searchFileSD env1 content fp tgt).stdoutMsgs
          = (searchFileSD env2 content fp tgt).stdoutMsgs
      ∧ (searchFileSD env1 content fp tgt).stderrMsgs
          = (searchFileSD env2 content fp tgt).stderrMsgs := by
  intro env1 env2 content fp tgt
  cases content with
  | error e => exact ⟨rfl, rfl, rfl⟩
  | ok pf =>
    refine ⟨?_, rfl, rfl⟩
    simp only [searchFileSD]
    exact processSD_proj_irrel _ _ _ _ _

end Claims

namespace Poogle2

open PySearch

/-- A successful lookup means the key is among the file-system names. -/
theorem lookup_mem_fsNames {fs : FileSys} {f : String}
    {c : Except ParseErr ParsedFile} (h : lookupList fs f = some c) :
    f ∈ fsNames fs := by
  induction fs with
  | nil => simp [lookupList] at h
  | cons hd tl ih =>
    obtain ⟨k, v⟩ := hd
    simp only [lookupList] at h
    by_cases hk : k = f
    · subst hk; simp [fsNames]
    · rw [if_neg hk] at h
      simp only [fsNames, List.map_cons, List.mem_cons]
      exact Or.inr (ih h)

/-- Filtering with a stronger predicate keeps at most as many elements. -/
theorem filter_length_mono {α : Type} (p q : α → Bool)
    (h : ∀ x, p x = true → q x = true) :
    ∀ l : List α, (l.filter p).length ≤ (l.filter q).length := by
  intro l
  induction l with
  | nil => simp
  | cons a as ih =>
    cases hp : p a with
    | true => simp [List.filter_cons, hp, h a hp]; omega
    | false =>
      cases hq : q a with
      | true => simp [List.filter_cons, hp, hq]; omega
      | false => simpa [List.filter_cons, hp, hq] using ih

/-- Growing the visited set cannot increase the unvisited count. -/
theorem unvisitedCount_mono {fs : FileSys} {v1 v2 : List String}
    (h : ∀ x, x ∈ v1 → x ∈ v2) :
    unvisitedCount fs v2 ≤ unvisitedCount fs v1 := by
  apply filter_length_mono
  intro x hx
  simp only [decide_eq_true_eq] at hx ⊢
  exact fun hmem => hx (h x hmem)

/-- Filtering with a strictly stronger predicate that loses a present
element keeps strictly fewer elements. -/
theorem filter_length_strict {α : Type} (p q : α → Bool)
    (hpq : ∀ x, p x = true → q x = true) (f : α)
    (hpf : p f = false) (hqf : q f = true) :
    ∀ l : List α, f ∈ l → (l.filter p).length < (l.filter q).length := by
  intro l
  induction l with
  | nil => intro h; exact absurd h (List.not_mem_nil f)
  | cons a as ih =>
    intro hmem
    rw [List.filter_cons, List.filter_cons]
    by_cases ha : a = f
    · subst ha
      rw [if_neg (by simp [hpf]), if_pos hqf]
      have := filter_length_mono p q hpq as
      simp only [List.length_cons]
      omega
    · have hmem2 : f ∈ as := by
        rcases List.mem_cons.mp hmem with h | h
        · exact absurd h.symm ha
        · exact h
      by_cases hpa : p a = true
      · rw [if_pos hpa, if_pos (hpq a hpa)]
        simpa only [List.length_cons, Nat.succ_lt_succ_iff] using ih hmem2
      · rw [if_neg hpa]
        by_cases hqa : q a = true
        · rw [if_pos hqa]
          have := ih hmem2
          simp only [List.length_cons]
          omega
        · rw [if_neg hqa]
          exact ih hmem2

/-- Visiting a file that exists and was unvisited strictly decreases the
unvisited count. -/
theorem unvisitedCount_strict {fs : FileSys} {f : String} {visited : List String}
    (hmem : f ∈ fsNames fs) (hnv : f ∉ visited) :
    unvisitedCount fs (f :: visited) < unvisitedCount fs visited := by
  apply filter_length_strict _ _ ?_ f ?_ ?_ _ hmem
  · intro x hx
    simp only [decide_eq_true_eq, List.mem_cons, not_or] at hx ⊢
    exact hx.2
  · simp
  · simpa using hnv

end Poogle2

namespace Poogle2

open PySearch

/-- Composing the invariant for an accumulator with the invariant for a
nested call started from the accumulator's visited set: used for the
output shapes `doraStep` produces, whose visited set comes from the
nested call, whose trace is the concatenation, and whose outcome can
only be an error the nested call produced. -/
theorem doraStep_compose (fs : FileSys) (fuel' : Nat) (visited0 : List String)
    (acc r out : DoraOut)
    (hacc : DoraInv fs visited0 fuel' acc)
    (hr : DoraInv fs acc.visitedFiles fuel' r)
    (hvis : out.visitedFiles = r.visitedFiles)
    (htr : out.trace = acc.trace ++ r.trace)
    (hout : ∀ e, out.outcome = .error e → r.outcome = .error e) :
    DoraInv fs visited0 fuel' out := by
  obtain ⟨pa, h1, h2, h3, h4, h5, h6⟩ := hacc
  obtain ⟨pr, g1, g2, g3, g4, g5, g6⟩ := hr
  refine ⟨pr ++ pa, ?_, ?_, ?_, ?_, ?_, ?_⟩
  · rw [hvis, g1, h1, List.append_assoc]
  · rw [List.nodup_append]
    refine ⟨g2, h2, fun x hx hx2 => ?_⟩
    exact g3 x hx (by rw [h1]; exact List.mem_append_left _ hx2)
  · intro x hx
    rcases List.mem_append.mp hx with hx | hx
    · intro hv; exact g3 x hx (by rw [h1]; exact List.mem_append_right _ hv)
    · exact h3 x hx
  · rw [htr, List.nodup_append]
    refine ⟨h4, g4, fun x hx hx2 => ?_⟩
    exact g3 x (g5 x hx2) (by rw [h1]; exact List.mem_append_left _ (h5 x hx))
  · intro x hx
    rw [htr] at hx
    rcases List.mem_append.mp hx with hx | hx
    · exact List.mem_append.mpr (Or.inr (h5 x hx))
    · exact List.mem_append.mpr (Or.inl (g5 x hx))
  · intro hu heq
    have hle : unvisitedCount fs acc.visitedFiles ≤ unvisitedCount fs visited0 := by
      apply unvisitedCount_mono
      intro x hx; rw [h1]; exact List.mem_append_right _ hx
    exact g6 (lt_of_le_of_lt hle hu) (hout _ heq)

/-- Joining a recursive call's outcome preserves the invariant. -/
theorem doraCombine_inv (fs : FileSys) (fuel' : Nat) (visited0 : List String)
    (acc : DoraOut) (rs : List ResolvedOcc) (r : DoraOut)
    (hacc : DoraInv fs visited0 fuel' acc)
    (hr : DoraInv fs acc.visitedFiles fuel' r) :
    DoraInv fs visited0 fuel' (doraCombine acc rs r) := by
  obtain ⟨rout, rvis, rmap, rtrace⟩ := r
  cases rout with
  | error e =>
    show DoraInv fs visited0 fuel' ⟨.error e, rvis, rmap, acc.trace ++ rtrace⟩
    exact doraStep_compose fs fuel' visited0 acc ⟨.error e, rvis, rmap, rtrace⟩ _
      hacc hr rfl rfl (fun e' he' => by cases he'; rfl)
  | ok rs2 =>
    show DoraInv fs visited0 fuel' ⟨.ok (rs ++ rs2), rvis, rmap, acc.trace ++ rtrace⟩
    exact doraStep_compose fs fuel' visited0 acc ⟨.ok rs2, rvis, rmap, rtrace⟩ _
      hacc hr rfl rfl (fun e' he' => by cases he')

/-- One `doraStep` preserves the traversal invariant, given that the
recursive entry (`dora` at the decremented fuel) establishes it from any
starting state. -/
theorem doraStep_inv (fs : FileSys) (t : Option String) (fuel' : Nat) (f : String)
    (hP : ∀ (g : String) (visited' : List String) (imap' : ImportMap),
      DoraInv fs visited' fuel' (dora fs t fuel' g visited' imap'))
    (visited0 : List String) (acc : DoraOut) (act : Action)
    (hacc : DoraInv fs visited0 fuel' acc) :
    DoraInv fs visited0 fuel' (doraStep fs t (dora fs t fuel') f acc act) := by
  obtain ⟨accout, accvis, accmap, acctrace⟩ := acc
  cases accout with
  | error e => exact hacc
  | ok rs =>
    cases act with
    | bindImport aname asname =>
      show DoraInv fs visited0 fuel'
        ⟨.ok rs, accvis, (asname.getD aname, aname) :: accmap, acctrace⟩
      obtain ⟨pa, h1, h2, h3, h4, h5, h6⟩ := hacc
      exact ⟨pa, h1, h2, h3, h4, h5, fun _ => by simp⟩
    | fromAlias module aname asname =>
      show DoraInv fs visited0 fuel'
        (if targetHit t (fullImportedName module aname) = true then
          match resolveImport fs f (fullImportedName module aname) with
          | some g => doraCombine ⟨.ok rs, accvis, accmap, acctrace⟩ rs
              (dora fs t fuel' g accvis
                ((asname.getD aname, fullImportedName module aname) :: accmap))
          | none => ⟨.ok rs, accvis,
              (asname.getD aname, fullImportedName module aname) :: accmap, acctrace⟩
        else ⟨.ok rs, accvis,
              (asname.getD aname, fullImportedName module aname) :: accmap, acctrace⟩)
      by_cases hhit : targetHit t (fullImportedName module aname) = true
      · rw [if_pos hhit]
        cases hres : resolveImport fs f (fullImportedName module aname) with
        | none =>
          show DoraInv fs visited0 fuel' ⟨.ok rs, accvis,
            (asname.getD aname, fullImportedName module aname) :: accmap, acctrace⟩
          obtain ⟨pa, h1, h2, h3, h4, h5, h6⟩ := hacc
          exact ⟨pa, h1, h2, h3, h4, h5, fun _ => by simp⟩
        | some g =>
          exact doraCombine_inv fs fuel' visited0 ⟨.ok rs, accvis, accmap, acctrace⟩
            rs _ hacc (hP g accvis _)
      · rw [if_neg hhit]
        obtain ⟨pa, h1, h2, h3, h4, h5, h6⟩ := hacc
        exact ⟨pa, h1, h2, h3, h4, h5, fun _ => by simp⟩

/-- The whole import loop preserves the traversal invariant. -/
theorem foldl_doraStep_inv (fs : FileSys) (t : Option String) (fuel' : Nat) (f : String)
    (hP : ∀ (g : String) (visited' : List String) (imap' : ImportMap),
      DoraInv fs visited' fuel' (dora fs t fuel' g visited' imap'))
    (visited0 : List String) :
    ∀ (acts : List Action) (acc : DoraOut), DoraInv fs visited0 fuel' acc →
      DoraInv fs visited0 fuel' (acts.foldl (doraStep fs t (dora fs t fuel') f) acc) := by
  intro acts
  induction acts with
  | nil => intro acc h; exact h
  | cons a as ih =>
    intro acc h
    exact ih _ (doraStep_inv fs t fuel' f hP visited0 acc a h)

/-- Every `dora` call satisfies the traversal invariant: the visited set
grows by distinct new files, the parse trace is duplicate-free, and with
fuel above the number of unvisited files the out-of-fuel outcome is
unreachable. -/
theorem dora_inv (fs : FileSys) (t : Option String) :
    ∀ (fuel : Nat) (f : String) (visited : List String) (imap : ImportMap),
      DoraInv fs visited fuel (dora fs t fuel f visited imap) := by
  intro fuel
  induction fuel with
  | zero =>
    intro f visited imap
    by_cases h : f ∈ visited
    · exact ⟨[], by simp [dora, h], List.nodup_nil, by simp,
        by simp [dora, h], by simp [dora, h], fun hu => by simp [dora, h]⟩
    · exact ⟨[], by simp [dora, h], List.nodup_nil, by simp,
        by simp [dora, h], by simp [dora, h],
        fun hu => absurd hu (Nat.not_lt_zero _)⟩
  | succ fuel' ih =>
    intro f visited imap
    by_cases h : f ∈ visited
    · exact ⟨[], by simp [dora, h], List.nodup_nil, by simp,
        by simp [dora, h], by simp [dora, h], fun hu => by simp [dora, h]⟩
    · cases hlook : lookupList fs f with
      | none =>
        refine ⟨[f], by simp [dora, h, hlook], List.nodup_singleton f, ?_,
          by simp [dora, h, hlook], by simp [dora, h, hlook], fun hu => by simp [dora, h, hlook]⟩
        intro x hx
        rw [List.mem_singleton.mp hx]
        exact h
      | some c =>
        cases c with
        | error e =>
          refine ⟨[f], by simp [dora, h, hlook], List.nodup_singleton f, ?_,
            by simp [dora, h, hlook], by simp [dora, h, hlook],
            fun hu => by simp [dora, h, hlook]⟩
          intro x hx
          rw [List.mem_singleton.mp hx]
          exact h
        | ok pf =>
          have hinit : DoraInv fs (f :: visited) fuel'
              ⟨.ok [], f :: visited, imap, []⟩ :=
            ⟨[], rfl, List.nodup_nil, by simp, List.nodup_nil, by simp,
              fun _ => by simp⟩
          have hla := foldl_doraStep_inv fs t fuel' f ih (f :: visited)
            (pf.body.flatMap stmtActions) ⟨.ok [], f :: visited, imap, []⟩ hinit
          obtain ⟨pl, l1, l2, l3, l4, l5, l6⟩ := hla
          rw [show dora fs t (fuel' + 1) f visited imap =
            ⟨((pf.body.flatMap stmtActions).foldl
                (doraStep fs t (dora fs t fuel') f)
                ⟨.ok [], f :: visited, imap, []⟩).outcome.map
              (fun rs => ((finderStmts t pf.body).map fun o =>
                ResolvedOcc.mk o.lineno o.colOffset o.occName o.exprKind
                  ((lookupList imap o.occName).getD f)) ++ rs),
             ((pf.body.flatMap stmtActions).foldl
                (doraStep fs t (dora fs t fuel') f)
                ⟨.ok [], f :: visited, imap, []⟩).visitedFiles,
             ((pf.body.flatMap stmtActions).foldl
                (doraStep fs t (dora fs t fuel') f)
                ⟨.ok [], f :: visited, imap, []⟩).importMap,
             f :: ((pf.body.flatMap stmtActions).foldl
                (doraStep fs t (dora fs t fuel') f)
                ⟨.ok [], f :: visited, imap, []⟩).trace⟩ from by
            simp [dora, h, hlook]]
          refine ⟨pl ++ [f], ?_, ?_, ?_, ?_, ?_, ?_⟩
          · rw [l1]
            simp
          · rw [List.nodup_append]
            refine ⟨l2, List.nodup_singleton f, fun x hx hx2 => ?_⟩
            rw [List.mem_singleton.mp hx2] at hx
            exact l3 f hx (List.mem_cons_self f visited)
          · intro x hx
            rcases List.mem_append.mp hx with hx | hx
            · intro hv
              exact l3 x hx (List.mem_cons_of_mem f hv)
            · rw [List.mem_singleton.mp hx]
              exact h
          · rw [List.nodup_cons]
            refine ⟨fun hx => ?_, l4⟩
            exact l3 f (l5 f hx) (List.mem_cons_self f visited)
          · intro x hx
            rcases List.mem_cons.mp hx with rfl | hx
            · exact List.mem_append.mpr (Or.inr (List.mem_singleton_self x))
            · exact List.mem_append.mpr (Or.inl (l5 x hx))
          · intro hu heq
            have hf : f ∈ fsNames fs := lookup_mem_fsNames hlook
            have hstrict := unvisitedCount_strict hf h
            have hlt : unvisitedCount fs (f :: visited) < fuel' := by omega
            cases hro : ((pf.body.flatMap stmtActions).foldl
                (doraStep fs t (dora fs t fuel') f)
                ⟨.ok [], f :: visited, imap, []⟩).outcome with
            | error e =>
              rw [hro] at heq
              simp only [Except.map] at heq
              cases heq
              exact l6 hlt hro
            | ok rs =>
              rw [hro] at heq
              simp only [Except.map] at heq
              cases heq

end Poogle2


namespace Poogle3

open PySearch Poogle2

/-- Shifting the analyzer invariant from an extended base back to the
original base. -/
theorem analyzeInv_compose (fs : FileSys) (fuel' : Nat) (analyzed0 mid : List String)
    (res : Except Py3Err AnalyzerState)
    (hmid : ∃ pa, mid = pa ++ analyzed0 ∧ pa.Nodup ∧ ∀ x ∈ pa, x ∉ analyzed0)
    (hr : AnalyzeInv fs mid fuel' res) :
    AnalyzeInv fs analyzed0 fuel' res := by
  obtain ⟨pa, hm1, hm2, hm3⟩ := hmid
  constructor
  · intro st hst
    obtain ⟨pr, g1, g2, g3⟩ := hr.1 st hst
    refine ⟨pr ++ pa, ?_, ?_, ?_⟩
    · rw [g1, hm1, List.append_assoc]
    · rw [List.nodup_append]
      refine ⟨g2, hm2, fun x hx hx2 => ?_⟩
      exact g3 x hx (by rw [hm1]; exact List.mem_append_left _ hx2)
    · intro x hx
      rcases List.mem_append.mp hx with hx | hx
      · intro hv; exact g3 x hx (by rw [hm1]; exact List.mem_append_right _ hv)
      · exact hm3 x hx
  · intro hu
    apply hr.2
    have hle : unvisitedCount fs mid ≤ unvisitedCount fs analyzed0 := by
      apply unvisitedCount_mono
      intro x hx; rw [hm1]; exact List.mem_append_right _ hx
    omega

/-- One step of the location loop preserves the analyzer invariant. -/
theorem analyzeStep_inv (fs : FileSys) (pattern : Option String) (fuel' : Nat)
    (hP : ∀ (st : AnalyzerState) (g : String),
      AnalyzeInv fs st.analyzedFiles fuel' (analyzeFile3 fs pattern fuel' st g))
    (analyzed0 : List String) (acc : Except Py3Err AnalyzerState) (loc : TypeLocation)
    (hacc : AnalyzeInv fs analyzed0 fuel' acc) :
    AnalyzeInv fs analyzed0 fuel'
      (analyzeStep pattern (analyzeFile3 fs pattern fuel') acc loc) := by
  cases acc with
  | error e => exact hacc
  | ok st =>
    obtain ⟨hok, _⟩ := hacc
    obtain ⟨pa, h1, h2, h3⟩ := hok st rfl
    show AnalyzeInv fs analyzed0 fuel'
      (if patternHit pattern (resolveLoc st.imports loc).typeName = true then
        match (resolveLoc st.imports loc).sourceFile with
        | some origin =>
          analyzeFile3 fs pattern fuel'
            { st with locations := st.locations ++ [resolveLoc st.imports loc] } origin
        | none => .ok { st with locations := st.locations ++ [resolveLoc st.imports loc] }
      else .ok st)
    by_cases hpat : patternHit pattern (resolveLoc st.imports loc).typeName = true
    · rw [if_pos hpat]
      cases hsf : (resolveLoc st.imports loc).sourceFile with
      | some origin =>
        exact analyzeInv_compose fs fuel' analyzed0 st.analyzedFiles _
          ⟨pa, h1, h2, h3⟩
          (hP { st with locations := st.locations ++ [resolveLoc st.imports loc] } origin)
      | none =>
        refine ⟨fun st2 hst2 => ?_, fun _ => by simp⟩
        cases hst2
        exact ⟨pa, h1, h2, h3⟩
    · rw [if_neg hpat]
      refine ⟨fun st2 hst2 => ?_, fun _ => by simp⟩
      cases hst2
      exact ⟨pa, h1, h2, h3⟩

/-- The whole location loop preserves the analyzer invariant. -/
theorem foldl_analyzeStep_inv (fs : FileSys) (pattern : Option String) (fuel' : Nat)
    (hP : ∀ (st : AnalyzerState) (g : String),
      AnalyzeInv fs st.analyzedFiles fuel' (analyzeFile3 fs pattern fuel' st g)) :
    ∀ (locs : List TypeLocation) (analyzed0 : List String)
      (acc : Except Py3Err AnalyzerState), AnalyzeInv fs analyzed0 fuel' acc →
      AnalyzeInv fs analyzed0 fuel'
        (locs.foldl (analyzeStep pattern (analyzeFile3 fs pattern fuel')) acc) := by
  intro locs
  induction locs with
  | nil => intro analyzed0 acc h; exact h
  | cons l ls ih =>
    intro analyzed0 acc h
    exact ih analyzed0 _ (analyzeStep_inv fs pattern fuel' hP analyzed0 acc l h)

/-- Every `analyze_file` call satisfies the analyzer invariant. -/
theorem analyzeFile3_inv (fs : FileSys) (pattern : Option String) :
    ∀ (fuel : Nat) (st : AnalyzerState) (f : String),
      AnalyzeInv fs st.analyzedFiles fuel (analyzeFile3 fs pattern fuel st f) := by
  intro fuel
  induction fuel with
  | zero =>
    intro st f
    by_cases h : f ∈ st.analyzedFiles
    · rw [show analyzeFile3 fs pattern 0 st f = .ok st from by simp [analyzeFile3, h]]
      refine ⟨fun st2 hst2 => ?_, fun _ => by simp⟩
      cases hst2
      exact ⟨[], rfl, List.nodup_nil, by simp⟩
    · rw [show analyzeFile3 fs pattern 0 st f = .error .fuelExhausted from by
        simp [analyzeFile3, h]]
      refine ⟨fun st2 hst2 => ?_, fun hu => absurd hu (Nat.not_lt_zero _)⟩
      cases hst2
  | succ fuel' ih =>
    intro st f
    by_cases h : f ∈ st.analyzedFiles
    · rw [show analyzeFile3 fs pattern (fuel' + 1) st f = .ok st from by
        simp [analyzeFile3, h]]
      refine ⟨fun st2 hst2 => ?_, fun _ => by simp⟩
      cases hst2
      exact ⟨[], rfl, List.nodup_nil, by simp⟩
    · cases hlook : lookupList fs f with
      | none =>
        rw [show analyzeFile3 fs pattern (fuel' + 1) st f = .error .ioError from by
          simp [analyzeFile3, h, hlook]]
        refine ⟨fun st2 hst2 => ?_, fun _ => by simp⟩
        cases hst2
      | some c =>
        cases c with
        | error e =>
          rw [show analyzeFile3 fs pattern (fuel' + 1) st f
              = .error (.parseFailure e) from by simp [analyzeFile3, h, hlook]]
          refine ⟨fun st2 hst2 => ?_, fun _ => by simp⟩
          cases hst2
        | ok pf =>
          cases hvisit : visitStmts3 f pf.lines pf.body with
          | none =>
            rw [show analyzeFile3 fs pattern (fuel' + 1) st f
                = .error .attributeError from by simp [analyzeFile3, h, hlook, hvisit]]
            refine ⟨fun st2 hst2 => ?_, fun _ => by simp⟩
            cases hst2
          | some locs =>
            rw [show analyzeFile3 fs pattern (fuel' + 1) st f
                = locs.foldl (analyzeStep pattern (analyzeFile3 fs pattern fuel'))
                    (.ok { st with
                      analyzedFiles := f :: st.analyzedFiles,
                      imports := analyzeImportsUpd st.imports f pf.body }) from by
              simp [analyzeFile3, h, hlook, hvisit]]
            have hinit : AnalyzeInv fs (f :: st.analyzedFiles) fuel'
                (.ok { st with
                  analyzedFiles := f :: st.analyzedFiles,
                  imports := analyzeImportsUpd st.imports f pf.body }) := by
              refine ⟨fun st2 hst2 => ?_, fun _ => by simp⟩
              cases hst2
              exact ⟨[], rfl, List.nodup_nil, by simp⟩
            have hloop := foldl_analyzeStep_inv fs pattern fuel' ih locs
              (f :: st.analyzedFiles) _ hinit
            constructor
            · intro st2 hst2
              obtain ⟨pre, g1, g2, g3⟩ := hloop.1 st2 hst2
              refine ⟨pre ++ [f], ?_, ?_, ?_⟩
              · rw [g1]; simp
              · rw [List.nodup_append]
                refine ⟨g2, List.nodup_singleton f, fun x hx hx2 => ?_⟩
                rw [List.mem_singleton.mp hx2] at hx
                exact g3 f hx (List.mem_cons_self f st.analyzedFiles)
              · intro x hx
                rcases List.mem_append.mp hx with hx | hx
                · intro hv; exact g3 x hx (List.mem_cons_of_mem f hv)
                · rw [List.mem_singleton.mp hx]; exact h
            · intro hu
              have hf : f ∈ fsNames fs := lookup_mem_fsNames hlook
              have hstrict := unvisitedCount_strict hf h
              exact hloop.2 (by omega)

end Poogle3

namespace Claims

open PySearch Poogle Poogle2 Poogle3 SecondDora Fixtures

/-- Claim C3: for any file system (hence any local import graph,
mutual/circular imports included), any root and any target, running the
traversal with the standard fuel `|fs| + 1` (a) never exhausts the fuel
- the fuel is decremented exactly when an unvisited existing file is
entered, so this is the statement that the real, unbounded recursion
terminates - and (b) parses and indexes every reachable file at most
once: `poogle2.dora`'s parse trace is duplicate-free, and the
`analyzed_files` set a successful `poogle3.analyze_file` run leaves
behind (which received one entry per parsed-and-indexed file) is
duplicate-free, however many import chains lead to a file. -/
theorem c3_visited_once_and_termination :
    ∀ (fs : FileSys) (t : Option String) (root : String),
      ((dora fs t (fs.length + 1) root [] []).outcome ≠ .error .fuelExhausted
        ∧ (dora fs t (fs.length + 1) root [] []).trace.Nodup)
      ∧ (analyzeFile3 fs t (fs.length + 1) initAnalyzer root ≠ .error .fuelExhausted
        ∧ match analyzeFile3 fs t (fs.length + 1) initAnalyzer root with
          | .ok st => st.analyzedFiles.Nodup
          | .error _ => True) := by
  intro fs t root
  have hcount : unvisitedCount fs [] < fs.length + 1 := by
    have hle : unvisitedCount fs [] ≤ (fsNames fs).length := List.length_filter_le _ _
    have hlen : (fsNames fs).length = fs.length := List.length_map _ _
    omega
  obtain ⟨pre, h1, h2, h3, h4, h5, h6⟩ := dora_inv fs t (fs.length + 1) root [] []
  have hA := analyzeFile3_inv fs t (fs.length + 1) initAnalyzer root
  refine ⟨⟨h6 hcount, h4⟩, hA.2 hcount, ?_⟩
  cases hres : analyzeFile3 fs t (fs.length + 1) initAnalyzer root with
  | error e => trivial
  | ok st =>
    obtain ⟨pre2, g1, g2, g3⟩ := hA.1 st hres
    show st.analyzedFiles.Nodup
    rw [g1]
    simpa [initAnalyzer] using g2

end Claims
